import Mathlib

/-!
Shallow embedding of the mapbox-gl-js gesture-handling core
(`src/ui/handler_manager.js`, `src/ui/handler/mouse.js`,
`src/ui/handler/touch_zoom_rotate.js`, `src/ui/handler/map_event.js`).

Scalars are modelled as rationals.  The external geometry library
(`@mapbox/point-geometry`) computes Euclidean distances and magnitudes with a
square root; every comparison the embedded code makes against a distance or a
magnitude is embedded as the equivalent comparison of squares (valid because
all tolerances are nonnegative), and a magnitude being zero is embedded as the
vector being the zero vector.  Signed angles (`Point.angleWith`) and the
constant pi live in the external geometry library as well, so the two-finger
rotate model is parameterised over them.
-/

namespace Mgl

/-- 2D point / vector from the external `@mapbox/point-geometry` package. -/
structure Pt where
  x : ℚ
  y : ℚ
deriving DecidableEq

instance : Add Pt := ⟨fun a b => ⟨a.x + b.x, a.y + b.y⟩⟩

instance : Sub Pt := ⟨fun a b => ⟨a.x - b.x, a.y - b.y⟩⟩

instance : Zero Pt := ⟨⟨0, 0⟩⟩

/-- Squared Euclidean distance; `p.dist q < t` in the source is embedded as
`distSq p q < t^2` (faithful for `t ≥ 0`). -/
def distSq (a b : Pt) : ℚ :=
  (a.x - b.x) ^ 2 + (a.y - b.y) ^ 2

/-! ## `src/ui/handler/mouse.js` -/

/-- Relevant fields of a DOM mouse event (`DOM.mouseButton` returns
`e.button`). -/
structure MouseEv where
  button : ℕ
  ctrlKey : Bool
deriving DecidableEq

/-- Mutable fields of `MouseHandler` (base class of the single-pointer drag
recognizers). -/
structure MouseState where
  enabled : Bool
  active : Bool
  notMoved : Bool
  lastPoint : Option Pt
  eventButton : Option ℕ
deriving DecidableEq

/-- `MouseHandler.reset`. -/
def MouseHandler.reset (s : MouseState) : MouseState :=
  { s with active := false, notMoved := true, lastPoint := none, eventButton := none }

/-- Fresh handler: the constructor calls `reset()`. -/
def MouseHandler.init : MouseState :=
  MouseHandler.reset ⟨false, false, true, none, none⟩

/-- A result returned by a single-pointer drag recognizer's `_move`. -/
structure MouseResult where
  panDelta : Option Pt
  bearingDelta : Option ℚ
  pitchDelta : Option ℚ
  around : Option Pt
deriving DecidableEq

/-- `MouseHandler.mousedown`, parameterised by the subclass's
`_correctButton` filter. -/
def MouseHandler.mousedown (correctButton : MouseEv → ℕ → Bool)
    (s : MouseState) (e : MouseEv) (point : Pt) : MouseState :=
  if s.lastPoint.isSome then s
  else if ¬ correctButton e e.button then s
  else { s with lastPoint := some point, eventButton := some e.button }

/-- `MouseHandler.mousemove`, parameterised by the subclass's `_move`
(which may also mutate the state, e.g. set `_active`).  `clickTolerance`
comparisons are embedded on squares. -/
def MouseHandler.mousemove (move : Pt → Pt → MouseState → MouseState × MouseResult)
    (clickTolerance : ℚ) (s : MouseState) (point : Pt) :
    Option MouseResult × MouseState :=
  match s.lastPoint with
  | none => (none, s)
  | some lastPoint =>
    if s.notMoved ∧ distSq point lastPoint < clickTolerance ^ 2 then (none, s)
    else
      let s1 := { s with notMoved := false, lastPoint := some point }
      let (s2, r) := move lastPoint point s1
      (some r, s2)

def LEFT_BUTTON : ℕ := 0

def RIGHT_BUTTON : ℕ := 2

/-- `MousePanHandler._correctButton`. -/
def MousePanHandler.correctButton (e : MouseEv) (button : ℕ) : Bool :=
  button == LEFT_BUTTON && !e.ctrlKey

/-- `MousePanHandler.mousedown`: runs the base press, then becomes active
immediately when the press was accepted (`if (this._lastPoint) this._active = true`). -/
def MousePanHandler.mousedown (s : MouseState) (e : MouseEv) (point : Pt) : MouseState :=
  let s1 := MouseHandler.mousedown MousePanHandler.correctButton s e point
  if s1.lastPoint.isSome then { s1 with active := true } else s1

/-- `MousePanHandler._move`. -/
def MousePanHandler.move (lastPoint point : Pt) (s : MouseState) :
    MouseState × MouseResult :=
  (s, ⟨some (point - lastPoint), none, none, some point⟩)

/-- `MousePanHandler.mousemove` (inherited from the base class with the
pan `_move`). -/
def MousePanHandler.mousemove (clickTolerance : ℚ) (s : MouseState) (point : Pt) :
    Option MouseResult × MouseState :=
  MouseHandler.mousemove MousePanHandler.move clickTolerance s point

/-- `MouseRotateHandler._correctButton`. -/
def MouseRotateHandler.correctButton (e : MouseEv) (button : ℕ) : Bool :=
  (button == LEFT_BUTTON && e.ctrlKey) || button == RIGHT_BUTTON

/-- `MouseRotateHandler._move`: sets `_active` and reports
`bearingDelta = (lastPoint.x − point.x) × −0.8`. -/
def MouseRotateHandler.move (lastPoint point : Pt) (s : MouseState) :
    MouseState × MouseResult :=
  ({ s with active := true },
   ⟨none, some ((lastPoint.x - point.x) * (-4/5)), none, none⟩)

/-- `MouseRotateHandler.mousedown` (inherited base `mousedown`). -/
def MouseRotateHandler.mousedown (s : MouseState) (e : MouseEv) (point : Pt) : MouseState :=
  MouseHandler.mousedown MouseRotateHandler.correctButton s e point

/-- `MouseRotateHandler.mousemove`. -/
def MouseRotateHandler.mousemove (clickTolerance : ℚ) (s : MouseState) (point : Pt) :
    Option MouseResult × MouseState :=
  MouseHandler.mousemove MouseRotateHandler.move clickTolerance s point

/-- `MousePitchHandler._correctButton` (same filter as rotate). -/
def MousePitchHandler.correctButton (e : MouseEv) (button : ℕ) : Bool :=
  (button == LEFT_BUTTON && e.ctrlKey) || button == RIGHT_BUTTON

/-- `MousePitchHandler._move`: sets `_active` and reports
`pitchDelta = (lastPoint.y − point.y) × 0.5`. -/
def MousePitchHandler.move (lastPoint point : Pt) (s : MouseState) :
    MouseState × MouseResult :=
  ({ s with active := true },
   ⟨none, none, some ((lastPoint.y - point.y) * (1/2)), none⟩)

/-- `MousePitchHandler.mousedown` (inherited base `mousedown`). -/
def MousePitchHandler.mousedown (s : MouseState) (e : MouseEv) (point : Pt) : MouseState :=
  MouseHandler.mousedown MousePitchHandler.correctButton s e point

/-- `MousePitchHandler.mousemove`. -/
def MousePitchHandler.mousemove (clickTolerance : ℚ) (s : MouseState) (point : Pt) :
    Option MouseResult × MouseState :=
  MouseHandler.mousemove MousePitchHandler.move clickTolerance s point

/-! ## `src/ui/handler/touch_zoom_rotate.js` — two-finger pitch -/

/-- `isVertical` from `touch_zoom_rotate.js`: `|v.y| > |v.x|`. -/
def isVertical (v : Pt) : Bool :=
  decide (|v.y| > |v.x|)

def ALLOWED_SINGLE_TOUCH_TIME : ℚ := 100

/-- State of `TouchPitchHandler` while tracking a two-finger gesture
(i.e. after `_start` has run): `_valid` is `none` for the JS `undefined`,
`_firstMove` is the timestamp of the first ambiguous move, `_lastPoints`
is always set by `_start`. -/
structure PitchState where
  active : Bool
  valid : Option Bool
  firstMove : Option ℚ
  lastPoints : Pt × Pt
deriving DecidableEq

/-- `TouchPitchHandler._start` run on freshly reset fields: records the
points and marks the gesture permanently invalid when the vector between
the two initial touch points is vertical. -/
def TouchPitchHandler.start (points : Pt × Pt) : PitchState :=
  { active := false
    firstMove := none
    lastPoints := points
    valid := if isVertical (points.1 - points.2) then some false else none }

/-- `TouchPitchHandler.gestureBeginsVertically`; `vector.mag() === 0` is
embedded as the vector being the zero vector.  Returns the tri-state verdict
together with the possibly updated `_firstMove`. -/
def TouchPitchHandler.gestureBeginsVertically (s : PitchState)
    (vectorA vectorB : Pt) (timeStamp : ℚ) : Option Bool × PitchState :=
  match s.valid with
  | some b => (some b, s)
  | none =>
    if vectorA = 0 ∨ vectorB = 0 then
      match s.firstMove with
      | none =>
        -- sets `_firstMove = timeStamp`; then `timeStamp - _firstMove = 0 < 100`
        (none, { s with firstMove := some timeStamp })
      | some firstMove =>
        if timeStamp - firstMove < ALLOWED_SINGLE_TOUCH_TIME then (none, s)
        else (some false, s)
    else
      let isSameDirection := decide ((vectorA.y > 0) = (vectorB.y > 0))
      (some (isVertical vectorA && isVertical vectorB && isSameDirection), s)

/-- `TouchPitchHandler._move`: result is the `pitchDelta` field of the
returned `HandlerResult`, if any. -/
def TouchPitchHandler.move (s : PitchState) (points : Pt × Pt) (timeStamp : ℚ) :
    Option ℚ × PitchState :=
  let vectorA := points.1 - s.lastPoints.1
  let vectorB := points.2 - s.lastPoints.2
  let (v, s1) := TouchPitchHandler.gestureBeginsVertically s vectorA vectorB timeStamp
  let s2 := { s1 with valid := v }
  if v = some true then
    (some (((vectorA.y + vectorB.y) / 2) * (-1/2)),
     { s2 with lastPoints := points, active := true })
  else (none, s2)

/-- Run a sequence of `_move` calls (each a pair of touch points plus a
timestamp), collecting the results. -/
def TouchPitchHandler.runMoves (s : PitchState) :
    List ((Pt × Pt) × ℚ) → List (Option ℚ) × PitchState
  | [] => ([], s)
  | m :: rest =>
    let (r, s1) := TouchPitchHandler.move s m.1 m.2
    let (rs, s2) := TouchPitchHandler.runMoves s1 rest
    (r :: rs, s2)

/-! ## `src/ui/handler/touch_zoom_rotate.js` — two-finger rotate

`Point.angleWith` and `Math.PI` belong to the environment outside this
repository, so the rotate model is parameterised over the signed-angle
function `angleWith`, the magnitude function `mag` and the constant `piv`
(standing for pi).  `points[0].dist(points[1])` equals
`(points[0] − points[1]).mag()` in the external library, and is embedded
through `mag` accordingly. -/

def THRESHOLD : ℚ := 20

/-- State of `TouchRotateHandler` while tracking (after `_start`). -/
structure RotState where
  active : Bool
  vector : Pt
  startVector : Pt
  minDiameter : ℚ
deriving DecidableEq

/-- `getBearingDelta a b = a.angleWith(b) * 180 / Math.PI`. -/
def getBearingDelta (angleWith : Pt → Pt → ℚ) (piv : ℚ) (a b : Pt) : ℚ :=
  angleWith a b * 180 / piv

/-- `TouchRotateHandler._start`. -/
def TouchRotateHandler.start (mag : Pt → ℚ) (points : Pt × Pt) : RotState :=
  { active := false
    vector := points.1 - points.2
    startVector := points.1 - points.2
    minDiameter := mag (points.1 - points.2) }

/-- `TouchRotateHandler._isBelowThreshold`: updates `_minDiameter` and
compares the bearing change since gesture start against the dynamic
threshold `THRESHOLD / (pi * minDiameter) * 360`. -/
def TouchRotateHandler.isBelowThreshold (angleWith : Pt → Pt → ℚ) (piv : ℚ)
    (mag : Pt → ℚ) (s : RotState) (vector : Pt) : Bool × RotState :=
  let minDiameter := min s.minDiameter (mag vector)
  let circumference := piv * minDiameter
  let threshold := THRESHOLD / circumference * 360
  let bearingDeltaSinceStart := getBearingDelta angleWith piv vector s.startVector
  (decide (|bearingDeltaSinceStart| < threshold),
   { s with minDiameter := minDiameter })

/-- `TouchRotateHandler._move`: result is the `bearingDelta` field of the
returned `HandlerResult`, if any.  `_isBelowThreshold` is only evaluated
when the recognizer is not yet active (the source short-circuits on
`!this._active &&`). -/
def TouchRotateHandler.move (angleWith : Pt → Pt → ℚ) (piv : ℚ) (mag : Pt → ℚ)
    (s : RotState) (points : Pt × Pt) : Option ℚ × RotState :=
  let lastVector := s.vector
  let vector := points.1 - points.2
  let s1 := { s with vector := vector }
  if s.active then
    (some (getBearingDelta angleWith piv vector lastVector), { s1 with active := true })
  else
    let (below, s2) := TouchRotateHandler.isBelowThreshold angleWith piv mag s1 vector
    if below then (none, s2)
    else (some (getBearingDelta angleWith piv vector lastVector), { s2 with active := true })

/-! ## `src/ui/handler/map_event.js` -/

/-- The fields of `MapEventHandler` the click logic uses. -/
structure MEState where
  mouseDownPos : Option Pt
deriving DecidableEq

/-- `MapEventHandler.mousedown` records the press position. -/
def MapEventHandler.mousedown (s : MEState) (point : Pt) : MEState :=
  { s with mouseDownPos := some point }

/-- `MapEventHandler.click`: returns whether the click notification is fired.
The source suppresses it when a press position is recorded and
`mouseDownPos.dist(point) > clickTolerance`; the distance comparison is
embedded on squares (faithful for a nonnegative tolerance). -/
def MapEventHandler.click (clickTolerance : ℚ) (s : MEState) (point : Pt) : Bool :=
  match s.mouseDownPos with
  | some d => !decide (distSq d point > clickTolerance ^ 2)
  | none => true

/-- State of `BlockableMapEventHandler`: the constructor leaves both fields
undefined, which behaves like the reset state. -/
structure BState where
  delayContextMenu : Bool
  contextMenuEvent : Option ℕ
deriving DecidableEq

def BlockableMapEventHandler.init : BState := ⟨false, none⟩

/-- The operations of a press/release cycle observed by
`BlockableMapEventHandler`; contextmenu events carry an opaque payload id. -/
inductive BOp where
  | mousedown
  | mouseup
  | contextmenu (ev : ℕ)
  | reset
deriving DecidableEq

/-- One step of `BlockableMapEventHandler`; the second component lists the
payloads of the `contextmenu` map events fired by this step. -/
def BlockableMapEventHandler.step (s : BState) : BOp → BState × List ℕ
  | .mousedown => ({ s with delayContextMenu := true }, [])
  | .mouseup =>
    match s.contextMenuEvent with
    | some ev => (⟨false, none⟩, [ev])
    | none => ({ s with delayContextMenu := false }, [])
  | .contextmenu ev =>
    if s.delayContextMenu then ({ s with contextMenuEvent := some ev }, [])
    else (s, [ev])
  | .reset => (⟨false, none⟩, [])

/-- Run a sequence of operations, collecting every fired `contextmenu`
payload in order. -/
def BlockableMapEventHandler.run (s : BState) : List BOp → BState × List ℕ
  | [] => (s, [])
  | op :: rest =>
    let (s1, f1) := BlockableMapEventHandler.step s op
    let (s2, f2) := BlockableMapEventHandler.run s1 rest
    (s2, f1 ++ f2)

/-! ## `src/ui/handler_manager.js` -/

/-- The `HandlerResult` record of the manager.  A `none` field is a missing
key of the JS object; `around`/`pinchAround` can be present-but-null, hence
the doubled `Option`. -/
structure HandlerResult where
  panDelta : Option Pt := none
  zoomDelta : Option ℚ := none
  bearingDelta : Option ℚ := none
  pitchDelta : Option ℚ := none
  around : Option (Option Pt) := none
  pinchAround : Option (Option Pt) := none
  duration : Option ℚ := none
  easing : Option ℕ := none
  delayEndEvents : Option ℚ := none
  needsRenderFrame : Option Bool := none
  noInertia : Option Bool := none
deriving DecidableEq

def HandlerResult.empty : HandlerResult := {}

/-- JS truthiness of a possibly missing number field. -/
def truthyQ (o : Option ℚ) : Bool :=
  decide (o.getD 0 ≠ 0)

/-- JS truthiness of a possibly missing boolean field. -/
def truthyB (o : Option Bool) : Bool :=
  o.getD false

/-- `hasChange`: `(result.panDelta && result.panDelta.mag()) || result.zoomDelta
|| result.bearingDelta || result.pitchDelta`; a magnitude is truthy exactly
when the vector is nonzero. -/
def hasChange (result : HandlerResult) : Bool :=
  (match result.panDelta with
   | some p => decide (p ≠ 0)
   | none => false)
  || truthyQ result.zoomDelta || truthyQ result.bearingDelta || truthyQ result.pitchDelta

/-- `eventsInProgress` for the four camera axes: axis name to the name of
the recognizer driving it. -/
structure EIP where
  zoom : Option String := none
  drag : Option String := none
  pitch : Option String := none
  rotate : Option String := none
deriving DecidableEq

def EIP.empty : EIP := {}

/-- Key-wise `extend(dest, src)` on optional fields: a present source key
overwrites, a missing one leaves the destination. -/
def overwrite {α : Type} (d s : Option α) : Option α :=
  match s with
  | some v => some v
  | none => d

/-- `extend` on `eventsInProgress` objects. -/
def EIP.extend (d s : EIP) : EIP :=
  ⟨overwrite d.zoom s.zoom, overwrite d.drag s.drag,
   overwrite d.pitch s.pitch, overwrite d.rotate s.rotate⟩

/-- `extend(mergedHandlerResult, handlerResult)`: every key present in the
handler result overwrites the merged one. -/
def HandlerResult.extendWith (d s : HandlerResult) : HandlerResult :=
  { panDelta := overwrite d.panDelta s.panDelta
    zoomDelta := overwrite d.zoomDelta s.zoomDelta
    bearingDelta := overwrite d.bearingDelta s.bearingDelta
    pitchDelta := overwrite d.pitchDelta s.pitchDelta
    around := overwrite d.around s.around
    pinchAround := overwrite d.pinchAround s.pinchAround
    duration := overwrite d.duration s.duration
    easing := overwrite d.easing s.easing
    delayEndEvents := overwrite d.delayEndEvents s.delayEndEvents
    needsRenderFrame := overwrite d.needsRenderFrame s.needsRenderFrame
    noInertia := overwrite d.noInertia s.noInertia }

/-- `HandlerManager.mergeHandlerResult`: no-op on a missing result, else
extends the merged result and records axis ownership (tested with
`!== undefined`, i.e. key presence, not truthiness). -/
def HandlerManager.mergeHandlerResult (merged : HandlerResult) (events : EIP)
    (handlerResult : Option HandlerResult) (name : String) : HandlerResult × EIP :=
  match handlerResult with
  | none => (merged, events)
  | some r =>
    (merged.extendWith r,
     { zoom := if r.zoomDelta.isSome then some name else events.zoom
       drag := if r.panDelta.isSome then some name else events.drag
       pitch := if r.pitchDelta.isSome then some name else events.pitch
       rotate := if r.bearingDelta.isSome then some name else events.rotate })

/-- One iteration of the `applyChanges` reduction loop, written with each
field of the JS object assigned once (every mutation in the source writes a
distinct key, reading only the pre-iteration value, so the record form is
equivalent).  An animated change arriving when a duration is already set
discards everything accumulated so far. -/
def HandlerManager.applyChangesStep (acc : HandlerResult × EIP)
    (che : HandlerResult × EIP) : HandlerResult × EIP :=
  let change := che.1
  let base :=
    if truthyQ change.duration && truthyQ acc.1.duration then (HandlerResult.empty, EIP.empty)
    else acc
  let c := base.1
  ({ duration := if truthyQ change.duration then change.duration else c.duration
     easing := if change.easing.isSome then change.easing else c.easing
     panDelta :=
       match change.panDelta with
       | some p => some (c.panDelta.getD 0 + p)
       | none => c.panDelta
     zoomDelta :=
       if truthyQ change.zoomDelta then some (c.zoomDelta.getD 0 + change.zoomDelta.getD 0)
       else c.zoomDelta
     bearingDelta :=
       if truthyQ change.bearingDelta then some (c.bearingDelta.getD 0 + change.bearingDelta.getD 0)
       else c.bearingDelta
     pitchDelta :=
       if truthyQ change.pitchDelta then some (c.pitchDelta.getD 0 + change.pitchDelta.getD 0)
       else c.pitchDelta
     around := if change.around.isSome then change.around else c.around
     pinchAround := if change.pinchAround.isSome then change.pinchAround else c.pinchAround
     delayEndEvents := c.delayEndEvents
     needsRenderFrame := c.needsRenderFrame
     noInertia := if truthyB change.noInertia then change.noInertia else c.noInertia },
   EIP.extend base.2 che.2)

/-- The reduction of the change queue performed at the top of
`applyChanges`. -/
def HandlerManager.combineChanges (changes : List (HandlerResult × EIP)) :
    HandlerResult × EIP :=
  changes.foldl HandlerManager.applyChangesStep (HandlerResult.empty, EIP.empty)

/-- Observable state of the manager around `applyChanges` /
`updateMapTransform`.  The camera transform (`Cam`) and the inertia tracker
(`I`) are external collaborators, kept abstract. -/
structure MState (Cam I : Type) where
  changes : List (HandlerResult × EIP)
  transform : Cam
  inertia : I
  eased : List HandlerResult
  fired : List EIP
deriving DecidableEq

/-- `HandlerManager.updateMapTransform`, parameterised over the camera
update of the synchronous branch (`applyCam`, standing for the
`pointLocation`/`setLocationAtPoint` block) and the inertia tracker's
`record`/`clear` operations. -/
def HandlerManager.updateMapTransform {Cam I : Type}
    (applyCam : HandlerResult → Cam → Cam)
    (inertiaRecord : HandlerResult → I → I) (inertiaClear : I → I)
    (combinedResult : HandlerResult) (combinedEventsInProgress : EIP)
    (s : MState Cam I) : MState Cam I :=
  if hasChange combinedResult = false then
    { s with fired := s.fired ++ [combinedEventsInProgress] }
  else if truthyQ combinedResult.duration then
    { s with eased := s.eased ++ [combinedResult], inertia := inertiaClear s.inertia }
  else
    { s with
      transform := applyCam combinedResult s.transform
      inertia :=
        if truthyB combinedResult.noInertia then s.inertia
        else inertiaRecord combinedResult s.inertia
      fired := s.fired ++ [combinedEventsInProgress] }

/-- `HandlerManager.applyChanges`: reduce the queue, apply the combined
result once, clear the queue unconditionally. -/
def HandlerManager.applyChanges {Cam I : Type}
    (applyCam : HandlerResult → Cam → Cam)
    (inertiaRecord : HandlerResult → I → I) (inertiaClear : I → I)
    (s : MState Cam I) : MState Cam I :=
  let ce := HandlerManager.combineChanges s.changes
  let s1 := HandlerManager.updateMapTransform applyCam inertiaRecord inertiaClear
    ce.1 ce.2 s
  { s1 with changes := [] }

/-! ### The dispatch loop of `HandlerManager.processInputEvent`

A registered handler's behaviour for the current event is abstracted by
`HSpec`: whether it is enabled, whether it implements the event's callback,
the result that callback returns, and what `isActive()` reports afterwards
in each situation (`reset()` sets the active flag to false in every handler
of this repository, but the field is kept abstract). -/

structure HSpec where
  enabled : Bool
  hasCallback : Bool
  response : Option HandlerResult
  activeAfterDispatch : Bool
  activeNoDispatch : Bool
  activeAfterReset : Bool
deriving DecidableEq

/-- A `(name, handler, allowed)` registration of `this._handlers`. -/
def Registration : Type := String × HSpec × Option (List String)

/-- What the dispatch loop did with one handler during one pass. -/
inductive Action where
  | skipped
  | reset (blocker : String)
  | dispatched (data : Option HandlerResult)
deriving DecidableEq

/-- The `activeHandlers` object is an insertion-ordered set of names:
assignment appends a missing key, deletion removes it. -/
def updateActive (active : List String) (name : String) (nowActive : Bool) :
    List String :=
  if nowActive then (if active.contains name then active else active ++ [name])
  else active.filter (fun n => n ≠ name)

/-- Accumulator of one dispatch pass. -/
structure PassState where
  merged : HandlerResult
  events : EIP
  active : List String
deriving DecidableEq

/-- At the top of `processInputEvent`:
`mergedHandlerResult = {needsRenderFrame: false}`, empty `eventsInProgress`
and `activeHandlers`. -/
def PassState.init : PassState :=
  ⟨{ HandlerResult.empty with needsRenderFrame := some false }, EIP.empty, []⟩

/-- `HandlerManager.blockedByActive`: first active name other than mine that
my allow-list does not admit (an absent allow-list admits nobody); returns
the blocking name, or `none` for the JS `false`. -/
def HandlerManager.blockedByActive (activeHandlers : List String)
    (allowed : Option (List String)) (myName : String) : Option String :=
  activeHandlers.find? fun name =>
    name != myName &&
      (match allowed with
       | none => true
       | some l => !(l.contains name))

/-- One iteration of the dispatch loop.  The caller tests the blocking name
for JS truthiness, so an empty-string blocker does not block.  When the
handler lacks the event callback, `data` stays undefined and
`mergeHandlerResult` is a no-op. -/
def HandlerManager.stepReg (st : PassState) (reg : Registration) :
    Action × PassState :=
  let (name, h, allowed) := reg
  if ¬ h.enabled then (.skipped, st)
  else if ((HandlerManager.blockedByActive st.active allowed name).getD "") ≠ "" then
    let blocker := (HandlerManager.blockedByActive st.active allowed name).getD ""
    (.reset blocker,
     { st with active := updateActive st.active name h.activeAfterReset })
  else
    let data := if h.hasCallback then h.response else none
    let (merged, events) := HandlerManager.mergeHandlerResult st.merged st.events data name
    let isAct := if h.hasCallback then h.activeAfterDispatch else h.activeNoDispatch
    (.dispatched data,
     { merged := merged
       events := events
       active := updateActive st.active name (data.isSome || isAct) })

/-- The full pass of `processInputEvent` over the registration list, in
registration order, returning what was done with each handler. -/
def HandlerManager.runPass (st : PassState) :
    List Registration → List (String × Action) × PassState
  | [] => ([], st)
  | reg :: rest =>
    let (act, st1) := HandlerManager.stepReg st reg
    let (acts, st2) := HandlerManager.runPass st1 rest
    ((reg.1, act) :: acts, st2)

/-! ### `HandlerManager.add` -/

/-- A handler instance as far as `add` observes it: an identity and its
enabled flag (`handler.enable()` sets the flag). -/
structure HInstance where
  id : ℕ
  enabled : Bool
deriving DecidableEq

/-- The two registration structures of the manager: the ordered list
`_handlers` and the map `_handlersById`. -/
structure AddState where
  handlers : List (String × HInstance × Option (List String))
  handlersById : List (String × HInstance)
deriving DecidableEq

/-- `HandlerManager.add`: a duplicate name throws (returned as the error
message) before any mutation; otherwise the triple is appended, the map is
extended and the handler is enabled. -/
def HandlerManager.add (s : AddState) (handlerName : String)
    (handler : HInstance) (allowed : Option (List String)) :
    Option String × AddState :=
  if (s.handlersById.lookup handlerName).isSome then
    (some ("Cannot add " ++ handlerName ++ ": a handler with that name already exists"), s)
  else
    let enabled := { handler with enabled := true }
    (none,
     { handlers := s.handlers ++ [(handlerName, enabled, allowed)]
       handlersById := s.handlersById ++ [(handlerName, enabled)] })

/-- Vector sum of all queued panDeltas (a missing field counts as zero). -/
def sumPan : List (HandlerResult × EIP) → Pt
  | [] => 0
  | c :: rest => c.1.panDelta.getD 0 + sumPan rest

/-- Sum of one numeric delta field over the queue (missing counts as zero). -/
def sumBy (f : HandlerResult → Option ℚ) : List (HandlerResult × EIP) → ℚ
  | [] => 0
  | c :: rest => (f c.1).getD 0 + sumBy f rest

/-! # Theorems -/

theorem Pt.add_def (a b : Pt) : a + b = ⟨a.x + b.x, a.y + b.y⟩ := rfl

theorem Pt.sub_def (a b : Pt) : a - b = ⟨a.x - b.x, a.y - b.y⟩ := rfl

theorem Pt.zero_def : (0 : Pt) = ⟨0, 0⟩ := rfl

theorem Pt.zero_x : (0 : Pt).x = 0 := rfl

theorem Pt.zero_y : (0 : Pt).y = 0 := rfl

theorem Pt.add_zero_right (a : Pt) : a + 0 = a := by
  cases a
  simp [Pt.add_def, Pt.zero_def]

theorem Pt.zero_add_left (a : Pt) : 0 + a = a := by
  cases a
  simp [Pt.add_def, Pt.zero_def]

theorem Pt.add_assoc_right (a b c : Pt) : a + b + c = a + (b + c) := by
  simp [Pt.add_def, add_assoc]

/-- Helper: looking a key up in an appended association list skips a block
that does not contain it. -/
theorem lookup_append_of_eq_none {β : Type} (l1 l2 : List (String × β)) (k : String)
    (h : l1.lookup k = none) : (l1 ++ l2).lookup k = l2.lookup k := by
  induction l1 with
  | nil => rfl
  | cons a t ih =>
    obtain ⟨ka, va⟩ := a
    simp only [List.cons_append, List.lookup] at h ⊢
    cases hk : (k == ka) with
    | true => simp [hk] at h
    | false =>
      simp only [hk] at h ⊢
      exact ih h

/-- C7: registering under an already registered name fails with the
duplicate-registration error and returns the manager exactly as it was;
registering under a fresh name succeeds, appends the triple to the end of
the ordered registration list, makes it reachable by name, and the stored
recognizer is enabled. -/
theorem handlerManager_add_spec (s : AddState) (handlerName : String)
    (handler : HInstance) (allowed : Option (List String)) :
    ((s.handlersById.lookup handlerName).isSome = true →
      HandlerManager.add s handlerName handler allowed =
        (some ("Cannot add " ++ handlerName ++
          ": a handler with that name already exists"), s)) ∧
    (s.handlersById.lookup handlerName = none →
      (HandlerManager.add s handlerName handler allowed).1 = none ∧
      (HandlerManager.add s handlerName handler allowed).2.handlers
        = s.handlers ++ [(handlerName, { handler with enabled := true }, allowed)] ∧
      (HandlerManager.add s handlerName handler allowed).2.handlersById.lookup handlerName
        = some { handler with enabled := true } ∧
      (HInstance.mk handler.id true).enabled = true) := by
  constructor
  · intro hdup
    unfold HandlerManager.add
    rw [if_pos hdup]
  · intro hnone
    unfold HandlerManager.add
    rw [if_neg (by rw [hnone]; simp)]
    refine ⟨rfl, rfl, ?_, rfl⟩
    rw [lookup_append_of_eq_none _ _ _ hnone]
    simp [List.lookup]

/-- C8 counterexample: with tolerance 5, press at (0,0) and click at (3,4)
the distance equals the tolerance, so it is not less than the tolerance and
the claim predicts no click notification — yet the code publishes one
(the source only suppresses strictly greater distances). -/
theorem mapEvent_click_boundary_cex :
    MapEventHandler.click 5 ⟨some ⟨0, 0⟩⟩ ⟨3, 4⟩ = true ∧
    ¬ distSq ⟨0, 0⟩ ⟨3, 4⟩ < 5 ^ 2 := by
  constructor
  · norm_num [MapEventHandler.click, distSq]
  · norm_num [distSq]

/-- C8 (amended): with a press position recorded, the click notification is
published iff the press/release distance is at most the tolerance (squared
comparison; equivalent to `dist ≤ tolerance` for a nonnegative tolerance). -/
theorem mapEvent_click_iff_within_tolerance (clickTolerance : ℚ) (s : MEState)
    (d point : Pt) (h : s.mouseDownPos = some d) :
    MapEventHandler.click clickTolerance s point = true ↔
      distSq d point ≤ clickTolerance ^ 2 := by
  obtain ⟨pos⟩ := s
  cases h
  simp [MapEventHandler.click, not_lt]

/-- C8 witness: press recorded at (0,0), click at (3,0), tolerance 5. -/
theorem mapEvent_click_iff_within_tolerance_witness :
    (MEState.mk (some ⟨0, 0⟩)).mouseDownPos = some ⟨0, 0⟩ ∧
    (MapEventHandler.click 5 ⟨some ⟨0, 0⟩⟩ ⟨3, 0⟩ = true ↔
      distSq ⟨0, 0⟩ ⟨3, 0⟩ ≤ 5 ^ 2) :=
  ⟨rfl, mapEvent_click_iff_within_tolerance 5 ⟨some ⟨0, 0⟩⟩ ⟨0, 0⟩ ⟨3, 0⟩ rfl⟩

/-- C9 counterexample: in the interleaving mousedown, contextmenu, reset,
mouseup the deferred contextmenu event is discarded by the reset and zero
contextmenu notifications are published, contradicting the claimed
exactly-once guarantee for every interleaving including an intervening
reset. -/
theorem blockable_contextmenu_reset_zero_cex :
    (BlockableMapEventHandler.run BlockableMapEventHandler.init
      [.mousedown, .contextmenu 7, .reset, .mouseup]).2 = [] ∧
    ([] : List ℕ).length ≠ 1 := by
  decide

/-- C9 (amended): without an intervening reset, one raw contextmenu per
press/release cycle is published exactly once, whether the platform delivers
it between mousedown and mouseup (deferred until mouseup) or after mouseup
(published immediately); a reset between a deferred contextmenu and the
mouseup discards it and nothing is published. -/
theorem blockable_contextmenu_once (ev : ℕ) :
    (BlockableMapEventHandler.run BlockableMapEventHandler.init
      [.mousedown, .contextmenu ev, .mouseup]).2 = [ev] ∧
    (BlockableMapEventHandler.run BlockableMapEventHandler.init
      [.mousedown, .mouseup, .contextmenu ev]).2 = [ev] ∧
    (BlockableMapEventHandler.run BlockableMapEventHandler.init
      [.mousedown, .contextmenu ev, .reset, .mouseup]).2 = [] := by
  refine ⟨rfl, rfl, rfl⟩

/-- C6 counterexample: the mouse pan recognizer reports itself active
immediately after an accepted press, before any movement has been reported
(the press is accepted: the point is recorded and no move has happened). -/
theorem mousePan_active_at_press_cex :
    (MousePanHandler.mousedown MouseHandler.init ⟨0, false⟩ ⟨0, 0⟩).lastPoint
      = some ⟨0, 0⟩ ∧
    (MousePanHandler.mousedown MouseHandler.init ⟨0, false⟩ ⟨0, 0⟩).notMoved = true ∧
    (MousePanHandler.mousedown MouseHandler.init ⟨0, false⟩ ⟨0, 0⟩).active = true := by
  decide

/-- C6 (amended): rotate and pitch stay inactive after an accepted press and
after sub-tolerance movement, becoming active exactly when the first
qualifying movement is reported; pan instead becomes active already at the
accepted press. -/
theorem singlePointer_armed_then_active (tol : ℚ) (s : MouseState) (e : MouseEv)
    (lp p : Pt) :
    ((MouseRotateHandler.mousedown MouseHandler.init e p).active = false ∧
     (MousePitchHandler.mousedown MouseHandler.init e p).active = false) ∧
    (s.lastPoint = some lp → s.notMoved = true → distSq p lp < tol ^ 2 →
      MouseRotateHandler.mousemove tol s p = (none, s) ∧
      MousePitchHandler.mousemove tol s p = (none, s)) ∧
    (s.lastPoint = some lp → ¬ (s.notMoved = true ∧ distSq p lp < tol ^ 2) →
      (MouseRotateHandler.mousemove tol s p).1.isSome = true ∧
      (MouseRotateHandler.mousemove tol s p).2.active = true ∧
      (MousePitchHandler.mousemove tol s p).1.isSome = true ∧
      (MousePitchHandler.mousemove tol s p).2.active = true) ∧
    (s.lastPoint = none → MousePanHandler.correctButton e e.button = true →
      (MousePanHandler.mousedown s e p).active = true) := by
  refine ⟨⟨?_, ?_⟩, ?_, ?_, ?_⟩
  · unfold MouseRotateHandler.mousedown MouseHandler.mousedown MouseHandler.init
      MouseHandler.reset
    split
    · rfl
    · split <;> rfl
  · unfold MousePitchHandler.mousedown MouseHandler.mousedown MouseHandler.init
      MouseHandler.reset
    split
    · rfl
    · split <;> rfl
  · intro hlp hnm hd
    simp only [MouseRotateHandler.mousemove, MousePitchHandler.mousemove,
      MouseHandler.mousemove, hlp]
    refine ⟨?_, ?_⟩ <;> rw [if_pos ⟨hnm, hd⟩]
  · intro hlp hq
    simp only [MouseRotateHandler.mousemove, MousePitchHandler.mousemove,
      MouseHandler.mousemove, hlp]
    simp [MouseRotateHandler.move, MousePitchHandler.move, if_neg hq]
  · intro hlp hb
    unfold MousePanHandler.mousedown MouseHandler.mousedown
    rw [hlp]
    simp [hb]

/-- C6 witness: with tolerance 10, a press state at (0,0), a sub-tolerance
point (3,0) for the quiet branch. -/
theorem singlePointer_armed_then_active_witness :
    (MouseState.mk false false true (some ⟨0, 0⟩) (some 2)).lastPoint = some ⟨0, 0⟩ ∧
    (MouseState.mk false false true (some ⟨0, 0⟩) (some 2)).notMoved = true ∧
    distSq ⟨3, 0⟩ ⟨0, 0⟩ < 10 ^ 2 ∧
    (MouseRotateHandler.mousemove 10
        (MouseState.mk false false true (some ⟨0, 0⟩) (some 2)) ⟨3, 0⟩
      = (none, MouseState.mk false false true (some ⟨0, 0⟩) (some 2)) ∧
     MousePitchHandler.mousemove 10
        (MouseState.mk false false true (some ⟨0, 0⟩) (some 2)) ⟨3, 0⟩
      = (none, MouseState.mk false false true (some ⟨0, 0⟩) (some 2))) :=
  ⟨rfl, rfl, by norm_num [distSq],
   (singlePointer_armed_then_active 10
      (MouseState.mk false false true (some ⟨0, 0⟩) (some 2)) ⟨2, false⟩
      ⟨0, 0⟩ ⟨3, 0⟩).2.1 rfl rfl (by norm_num [distSq])⟩

/-- Helper: once the two-finger pitch gesture is marked invalid, every later
move returns no result and leaves the state untouched. -/
theorem touchPitch_invalid_stays (s : PitchState) (hv : s.valid = some false)
    (ms : List ((Pt × Pt) × ℚ)) :
    TouchPitchHandler.runMoves s ms = (ms.map fun _ => none, s) := by
  obtain ⟨act, val, fm, lps⟩ := s
  simp only at hv
  subst hv
  induction ms with
  | nil => rfl
  | cons m rest ih =>
    have hmove : TouchPitchHandler.move ⟨act, some false, fm, lps⟩ m.1 m.2
        = (none, ⟨act, some false, fm, lps⟩) := by
      simp [TouchPitchHandler.move, TouchPitchHandler.gestureBeginsVertically]
    simp only [TouchPitchHandler.runMoves, hmove, ih, List.map_cons]

/-- C2 counterexample: a gesture whose initial two-finger vector is more
vertical than horizontal (|Δy| > |Δx|) is marked permanently invalid by the
code — the opposite of the claim — and even a perfectly vertical,
same-direction touchmove returns no pitch result. -/
theorem touchPitch_vertical_start_cex :
    isVertical (Pt.mk 0 0 - Pt.mk 0 10) = true ∧
    (TouchPitchHandler.start (⟨0, 0⟩, ⟨0, 10⟩)).valid = some false ∧
    (TouchPitchHandler.move (TouchPitchHandler.start (⟨0, 0⟩, ⟨0, 10⟩))
      (⟨0, -5⟩, ⟨0, 5⟩) 0).1 = none := by
  have h1 : isVertical (Pt.mk 0 0 - Pt.mk 0 10) = true := by
    norm_num [isVertical, Pt.sub_def]
  have h2 : TouchPitchHandler.start (⟨0, 0⟩, ⟨0, 10⟩)
      = ⟨false, some false, none, (⟨0, 0⟩, ⟨0, 10⟩)⟩ := by
    simp [TouchPitchHandler.start, h1]
  refine ⟨h1, by rw [h2], ?_⟩
  rw [h2]
  simp [TouchPitchHandler.move, TouchPitchHandler.gestureBeginsVertically]

/-- C2 (amended): at gesture start, if the vector between the two initial
touch points is more vertical than horizontal (|Δy| > |Δx|) the gesture is
marked permanently invalid for this gesture instance — no later touchmove
returns a pitch result and the recognizer never activates; otherwise the
verdict is left undecided and the gesture remains potentially valid. -/
theorem touchPitch_start_verticality (p0 p1 : Pt) (ms : List ((Pt × Pt) × ℚ)) :
    (isVertical (p0 - p1) = true →
      (TouchPitchHandler.start (p0, p1)).valid = some false ∧
      (TouchPitchHandler.runMoves (TouchPitchHandler.start (p0, p1)) ms).1
        = ms.map (fun _ => none) ∧
      (TouchPitchHandler.runMoves (TouchPitchHandler.start (p0, p1)) ms).2.active
        = false) ∧
    (isVertical (p0 - p1) = false →
      (TouchPitchHandler.start (p0, p1)).valid = none) := by
  constructor
  · intro hv
    have hs : (TouchPitchHandler.start (p0, p1)).valid = some false := by
      simp [TouchPitchHandler.start, hv]
    have hrun := touchPitch_invalid_stays _ hs ms
    refine ⟨hs, ?_, ?_⟩ <;> rw [hrun]
    simp [TouchPitchHandler.start]
  · intro hv
    simp [TouchPitchHandler.start, hv]

/-- C3 counterexample: tolerance 10, press at P0 = (0,0), quiet move to
P1 = (6,0), then move to P2 = (20,0) with dist(P1,P2) = 14 ≥ 10.  The claim
predicts panDelta = P2 − P1 = (14,0); the code reports P2 − P0 = (20,0),
because a sub-tolerance move does not advance the reference point. -/
theorem mousePan_delta_reference_cex :
    (MousePanHandler.mousemove 10
      (MousePanHandler.mousedown MouseHandler.init ⟨0, false⟩ ⟨0, 0⟩) ⟨6, 0⟩).1
      = none ∧
    ¬ distSq ⟨20, 0⟩ ⟨6, 0⟩ < 10 ^ 2 ∧
    ((MousePanHandler.mousemove 10
        (MousePanHandler.mousemove 10
          (MousePanHandler.mousedown MouseHandler.init ⟨0, false⟩ ⟨0, 0⟩) ⟨6, 0⟩).2
        ⟨20, 0⟩).1.map fun r => r.panDelta)
      = some (some ⟨20, 0⟩) ∧
    (Pt.mk 20 0 ≠ Pt.mk 20 0 - Pt.mk 6 0) := by
  have hd : MousePanHandler.mousedown MouseHandler.init ⟨0, false⟩ ⟨0, 0⟩
      = ⟨false, true, true, some ⟨0, 0⟩, some 0⟩ := by
    simp [MousePanHandler.mousedown, MouseHandler.mousedown, MouseHandler.init,
      MouseHandler.reset, MousePanHandler.correctButton, LEFT_BUTTON]
  have hm1 : MousePanHandler.mousemove 10
      (MouseState.mk false true true (some ⟨0, 0⟩) (some 0)) ⟨6, 0⟩
      = (none, ⟨false, true, true, some ⟨0, 0⟩, some 0⟩) := by
    simp only [MousePanHandler.mousemove, MouseHandler.mousemove]
    rw [if_pos ⟨by trivial, by norm_num [distSq]⟩]
  have hm2 : ((MousePanHandler.mousemove 10
      (MouseState.mk false true true (some ⟨0, 0⟩) (some 0)) ⟨20, 0⟩).1.map
        fun r => r.panDelta) = some (some (Pt.mk 20 0 - Pt.mk 0 0)) := by
    simp only [MousePanHandler.mousemove, MouseHandler.mousemove]
    rw [if_neg (by norm_num [distSq])]
    simp [MousePanHandler.move]
  refine ⟨?_, by norm_num [distSq], ?_, ?_⟩
  · rw [hd, hm1]
  · rw [hd, hm1]
    rw [hm2]
    norm_num [Pt.sub_def, Pt.mk.injEq]
  · norm_num [Pt.sub_def, Pt.mk.injEq]

/-- C3 (amended): after an accepted press at P0, a move to P1 with
dist(P0,P1) < tolerance returns no result and leaves the state unchanged
(the reference point stays P0); a further move to P2 with
dist(P0,P2) ≥ tolerance returns a result with panDelta = P2 − P0, and the
recognizer is active (distances compared on squares). -/
theorem mousePan_tolerance_from_press (tol : ℚ) (P0 P1 P2 : Pt) (e : MouseEv)
    (hbtn : MousePanHandler.correctButton e e.button = true)
    (h1 : distSq P1 P0 < tol ^ 2)
    (h2 : ¬ distSq P2 P0 < tol ^ 2) :
    (MousePanHandler.mousemove tol
      (MousePanHandler.mousedown MouseHandler.init e P0) P1).1 = none ∧
    (MousePanHandler.mousemove tol
      (MousePanHandler.mousedown MouseHandler.init e P0) P1).2
      = MousePanHandler.mousedown MouseHandler.init e P0 ∧
    ((MousePanHandler.mousemove tol
        (MousePanHandler.mousemove tol
          (MousePanHandler.mousedown MouseHandler.init e P0) P1).2 P2).1.map
      fun r => r.panDelta) = some (some (P2 - P0)) ∧
    (MousePanHandler.mousemove tol
        (MousePanHandler.mousemove tol
          (MousePanHandler.mousedown MouseHandler.init e P0) P1).2 P2).2.active
      = true := by
  have hd : MousePanHandler.mousedown MouseHandler.init e P0
      = ⟨false, true, true, some P0, some e.button⟩ := by
    simp [MousePanHandler.mousedown, MouseHandler.mousedown, MouseHandler.init,
      MouseHandler.reset, hbtn]
  rw [hd]
  have hm1 : MousePanHandler.mousemove tol
      (MouseState.mk false true true (some P0) (some e.button)) P1
      = (none, ⟨false, true, true, some P0, some e.button⟩) := by
    simp only [MousePanHandler.mousemove, MouseHandler.mousemove]
    rw [if_pos ⟨by trivial, h1⟩]
  rw [hm1]
  refine ⟨rfl, rfl, ?_, ?_⟩ <;>
  · simp only [MousePanHandler.mousemove, MouseHandler.mousemove]
    rw [if_neg (fun hc => h2 hc.2)]
    simp [MousePanHandler.move]

/-- C3 witness: tolerance 10, P0 = (0,0), P1 = (6,0), P2 = (20,0), left
button without the control modifier. -/
theorem mousePan_tolerance_from_press_witness :
    (MousePanHandler.mousemove 10
      (MousePanHandler.mousedown MouseHandler.init ⟨0, false⟩ ⟨0, 0⟩) ⟨6, 0⟩).1
      = none ∧
    (MousePanHandler.mousemove 10
      (MousePanHandler.mousedown MouseHandler.init ⟨0, false⟩ ⟨0, 0⟩) ⟨6, 0⟩).2
      = MousePanHandler.mousedown MouseHandler.init ⟨0, false⟩ ⟨0, 0⟩ ∧
    ((MousePanHandler.mousemove 10
        (MousePanHandler.mousemove 10
          (MousePanHandler.mousedown MouseHandler.init ⟨0, false⟩ ⟨0, 0⟩) ⟨6, 0⟩).2
        ⟨20, 0⟩).1.map fun r => r.panDelta)
      = some (some (Pt.mk 20 0 - Pt.mk 0 0)) ∧
    (MousePanHandler.mousemove 10
        (MousePanHandler.mousemove 10
          (MousePanHandler.mousedown MouseHandler.init ⟨0, false⟩ ⟨0, 0⟩) ⟨6, 0⟩).2
        ⟨20, 0⟩).2.active = true :=
  mousePan_tolerance_from_press 10 ⟨0, 0⟩ ⟨6, 0⟩ ⟨20, 0⟩ ⟨0, false⟩ rfl
    (by norm_num [distSq]) (by norm_num [distSq])

/-- C10: when the combined frame result carries no nonzero pan, zoom,
bearing or pitch delta, updateMapTransform leaves the camera transform and
the inertia tracker completely unchanged and only fires the lifecycle
notifications for the combined events-in-progress. -/
theorem updateMapTransform_no_change {Cam I : Type}
    (applyCam : HandlerResult → Cam → Cam)
    (inertiaRecord : HandlerResult → I → I) (inertiaClear : I → I)
    (c : HandlerResult) (ev : EIP) (s : MState Cam I)
    (hp : ∀ p, c.panDelta = some p → p = 0)
    (hz : c.zoomDelta.getD 0 = 0) (hb : c.bearingDelta.getD 0 = 0)
    (hpi : c.pitchDelta.getD 0 = 0) :
    HandlerManager.updateMapTransform applyCam inertiaRecord inertiaClear c ev s
      = { s with fired := s.fired ++ [ev] } := by
  have hc : hasChange c = false := by
    unfold hasChange truthyQ
    cases hcp : c.panDelta with
    | none => simp [hcp, hz, hb, hpi]
    | some p => simp [hcp, hp p hcp, hz, hb, hpi]
  unfold HandlerManager.updateMapTransform
  rw [if_pos hc]

/-- C10 witness: a combined result with a present-but-zero panDelta and
zoomDelta, over a concrete rational camera and inertia tracker. -/
theorem updateMapTransform_no_change_witness :
    @HandlerManager.updateMapTransform ℚ ℚ
      (fun _ t => t + 1) (fun _ t => t + 1) (fun _ => 0)
      { panDelta := some 0, zoomDelta := some 0 } EIP.empty
      ⟨[], 0, 0, [], []⟩
      = ⟨[], 0, 0, [], [EIP.empty]⟩ :=
  updateMapTransform_no_change (fun _ t => t + 1) (fun _ t => t + 1) (fun _ => 0)
    { panDelta := some 0, zoomDelta := some 0 } EIP.empty ⟨[], 0, 0, [], []⟩
    (fun _ h => (Option.some.inj h).symm) rfl rfl rfl

/-- C5: one step of the two-finger rotate recognizer.  The minimum observed
finger separation never increases (and is recomputed only on pre-activation
moves); while inactive, a move whose cumulative bearing change since gesture
start is below the dynamic threshold 20 / (pi * minDiameter) * 360 returns
no result and does not activate; a move at or above it returns a
bearingDelta measured against the previous move's finger vector and
activates; once active every move returns such a result, the recognizer
stays active and the minimum separation is left as is. -/
theorem touchRotate_threshold_behaviour (angleWith : Pt → Pt → ℚ) (piv : ℚ)
    (mag : Pt → ℚ) (s : RotState) (points : Pt × Pt) :
    ((TouchRotateHandler.move angleWith piv mag s points).2.minDiameter
      ≤ s.minDiameter) ∧
    (s.active = false →
      |getBearingDelta angleWith piv (points.1 - points.2) s.startVector|
          < THRESHOLD / (piv * min s.minDiameter (mag (points.1 - points.2))) * 360 →
      TouchRotateHandler.move angleWith piv mag s points
        = (none, { active := false, vector := points.1 - points.2,
                   startVector := s.startVector,
                   minDiameter := min s.minDiameter (mag (points.1 - points.2)) })) ∧
    (s.active = false →
      ¬ |getBearingDelta angleWith piv (points.1 - points.2) s.startVector|
          < THRESHOLD / (piv * min s.minDiameter (mag (points.1 - points.2))) * 360 →
      (TouchRotateHandler.move angleWith piv mag s points).1
          = some (getBearingDelta angleWith piv (points.1 - points.2) s.vector) ∧
      (TouchRotateHandler.move angleWith piv mag s points).2.active = true) ∧
    (s.active = true →
      (TouchRotateHandler.move angleWith piv mag s points).1
          = some (getBearingDelta angleWith piv (points.1 - points.2) s.vector) ∧
      (TouchRotateHandler.move angleWith piv mag s points).2.active = true ∧
      (TouchRotateHandler.move angleWith piv mag s points).2.minDiameter
          = s.minDiameter) := by
  obtain ⟨act, vec, sv, minD⟩ := s
  cases act with
  | true =>
    refine ⟨le_refl _, ?_, ?_, fun _ => ⟨rfl, rfl, rfl⟩⟩ <;> intro h <;> cases h
  | false =>
    by_cases hb :
      |getBearingDelta angleWith piv (points.1 - points.2) sv|
        < THRESHOLD / (piv * min minD (mag (points.1 - points.2))) * 360
    · refine ⟨?_, fun _ _ => ?_, fun _ hnb => absurd hb hnb, fun h => by cases h⟩
      · simp [TouchRotateHandler.move, TouchRotateHandler.isBelowThreshold, hb]
      · simp [TouchRotateHandler.move, TouchRotateHandler.isBelowThreshold, hb]
    · refine ⟨?_, fun _ hyes => absurd hyes hb, fun _ _ => ?_, fun h => by cases h⟩
      · simp [TouchRotateHandler.move, TouchRotateHandler.isBelowThreshold, hb]
      · simp [TouchRotateHandler.move, TouchRotateHandler.isBelowThreshold, hb]

/-- C2 witness: a gesture started with the vertical inter-finger vector
(0,0)-(0,10) is invalid and a subsequent move returns no result. -/
theorem touchPitch_start_verticality_witness :
    (TouchPitchHandler.start (⟨0, 0⟩, ⟨0, 10⟩)).valid = some false ∧
    (TouchPitchHandler.runMoves (TouchPitchHandler.start (⟨0, 0⟩, ⟨0, 10⟩))
      [((⟨0, -5⟩, ⟨0, 5⟩), 0)]).1 = [none] := by
  have h := (touchPitch_start_verticality ⟨0, 0⟩ ⟨0, 10⟩
    [((⟨0, -5⟩, ⟨0, 5⟩), 0)]).1 (by norm_num [isVertical, Pt.sub_def])
  exact ⟨h.1, h.2.1⟩

/-- C5 witness: an inactive state with minimum separation 10, a move whose
bearing change since start is 0, below the threshold 20/(pi*1)*360 computed
with the new minimum separation 1, returns no result. -/
theorem touchRotate_threshold_behaviour_witness :
    TouchRotateHandler.move (fun a b => a.x * b.y - a.y * b.x) 3 (fun _ => 1)
      ⟨false, ⟨1, 0⟩, ⟨1, 0⟩, 10⟩ (⟨1, 0⟩, ⟨0, 0⟩)
      = (none,
         { active := false
           vector := (⟨1, 0⟩ : Pt) - ⟨0, 0⟩
           startVector := ⟨1, 0⟩
           minDiameter := min 10 ((fun _ => (1 : ℚ)) ((⟨1, 0⟩ : Pt) - ⟨0, 0⟩)) }) :=
  (touchRotate_threshold_behaviour (fun a b => a.x * b.y - a.y * b.x) 3
      (fun _ => 1) ⟨false, ⟨1, 0⟩, ⟨1, 0⟩, 10⟩ (⟨1, 0⟩, ⟨0, 0⟩)).2.1 rfl
    (by norm_num [getBearingDelta, THRESHOLD, Pt.sub_def, min_def])

/-- C7 witness: a manager holding the name "a" refuses a second "a" and
stays unchanged, while a fresh "b" is appended and enabled. -/
theorem handlerManager_add_spec_witness :
    (HandlerManager.add ⟨[("a", ⟨1, true⟩, none)], [("a", ⟨1, true⟩)]⟩ "a"
        ⟨2, false⟩ none
      = (some ("Cannot add " ++ "a" ++ ": a handler with that name already exists"),
         ⟨[("a", ⟨1, true⟩, none)], [("a", ⟨1, true⟩)]⟩)) ∧
    ((HandlerManager.add ⟨[("a", ⟨1, true⟩, none)], [("a", ⟨1, true⟩)]⟩ "b"
        ⟨2, false⟩ none).1 = none ∧
     (HandlerManager.add ⟨[("a", ⟨1, true⟩, none)], [("a", ⟨1, true⟩)]⟩ "b"
        ⟨2, false⟩ none).2.handlers
        = [("a", ⟨1, true⟩, none)] ++ [("b", ⟨2, true⟩, none)] ∧
     (HandlerManager.add ⟨[("a", ⟨1, true⟩, none)], [("a", ⟨1, true⟩)]⟩ "b"
        ⟨2, false⟩ none).2.handlersById.lookup "b" = some ⟨2, true⟩ ∧
     (HInstance.mk 2 true).enabled = true) :=
  ⟨(handlerManager_add_spec ⟨[("a", ⟨1, true⟩, none)], [("a", ⟨1, true⟩)]⟩ "a"
      ⟨2, false⟩ none).1 rfl,
   (handlerManager_add_spec ⟨[("a", ⟨1, true⟩, none)], [("a", ⟨1, true⟩)]⟩ "b"
      ⟨2, false⟩ none).2 rfl⟩

/-- Helper: when an iteration of the applyChanges loop does not hit the
animated-change override, every delta field accumulates and the duration
field's truthiness is the disjunction of the old and new ones. -/
theorem applyChangesStep_getD (acc che : HandlerResult × EIP)
    (h : (truthyQ che.1.duration && truthyQ acc.1.duration) = false) :
    (HandlerManager.applyChangesStep acc che).1.panDelta.getD 0
        = acc.1.panDelta.getD 0 + che.1.panDelta.getD 0 ∧
    (HandlerManager.applyChangesStep acc che).1.zoomDelta.getD 0
        = acc.1.zoomDelta.getD 0 + che.1.zoomDelta.getD 0 ∧
    (HandlerManager.applyChangesStep acc che).1.bearingDelta.getD 0
        = acc.1.bearingDelta.getD 0 + che.1.bearingDelta.getD 0 ∧
    (HandlerManager.applyChangesStep acc che).1.pitchDelta.getD 0
        = acc.1.pitchDelta.getD 0 + che.1.pitchDelta.getD 0 ∧
    truthyQ (HandlerManager.applyChangesStep acc che).1.duration
        = (truthyQ che.1.duration || truthyQ acc.1.duration) := by
  simp only [HandlerManager.applyChangesStep, h, Bool.false_eq_true, if_false]
  refine ⟨?_, ?_, ?_, ?_, ?_⟩
  · cases hcp : che.1.panDelta with
    | none => simp [hcp, Pt.add_zero_right]
    | some p => simp [hcp]
  · by_cases hz : truthyQ che.1.zoomDelta
    · simp [hz]
    · have h0 : che.1.zoomDelta.getD 0 = 0 := by
        unfold truthyQ at hz
        simpa using hz
      simp [hz, h0]
  · by_cases hz : truthyQ che.1.bearingDelta
    · simp [hz]
    · have h0 : che.1.bearingDelta.getD 0 = 0 := by
        unfold truthyQ at hz
        simpa using hz
      simp [hz, h0]
  · by_cases hz : truthyQ che.1.pitchDelta
    · simp [hz]
    · have h0 : che.1.pitchDelta.getD 0 = 0 := by
        unfold truthyQ at hz
        simpa using hz
      simp [hz, h0]
  · by_cases hd : truthyQ che.1.duration
    · simp [hd]
    · have hdf : truthyQ che.1.duration = false := by
        revert hd
        cases truthyQ che.1.duration <;> simp
      simp [hdf]

/-- Helper: the applyChanges reduction loop sums each delta field whenever
at most one queued change carries a truthy animation duration. -/
theorem combine_foldl_sums (l : List (HandlerResult × EIP)) :
    ∀ acc : HandlerResult × EIP,
      (truthyQ acc.1.duration = true →
        l.countP (fun c => truthyQ c.1.duration) = 0) →
      l.countP (fun c => truthyQ c.1.duration) ≤ 1 →
      (l.foldl HandlerManager.applyChangesStep acc).1.panDelta.getD 0
          = acc.1.panDelta.getD 0 + sumPan l ∧
      (l.foldl HandlerManager.applyChangesStep acc).1.zoomDelta.getD 0
          = acc.1.zoomDelta.getD 0 + sumBy HandlerResult.zoomDelta l ∧
      (l.foldl HandlerManager.applyChangesStep acc).1.bearingDelta.getD 0
          = acc.1.bearingDelta.getD 0 + sumBy HandlerResult.bearingDelta l ∧
      (l.foldl HandlerManager.applyChangesStep acc).1.pitchDelta.getD 0
          = acc.1.pitchDelta.getD 0 + sumBy HandlerResult.pitchDelta l := by
  induction l with
  | nil =>
    intro acc h0 h1
    simp [sumPan, sumBy, Pt.add_zero_right]
  | cons c rest ih =>
    intro acc hacc hle
    rw [List.countP_cons] at hle
    by_cases hc : truthyQ c.1.duration = true
    · have hrest : rest.countP (fun x => truthyQ x.1.duration) = 0 := by
        simp only [hc, if_true] at hle
        omega
      have haccF : truthyQ acc.1.duration = false := by
        cases hA : truthyQ acc.1.duration with
        | false => rfl
        | true =>
          have := hacc hA
          simp [List.countP_cons, hc] at this
      have hstep := applyChangesStep_getD acc c (by rw [haccF, Bool.and_false])
      have ihres := ih (HandlerManager.applyChangesStep acc c)
        (fun _ => hrest) (by rw [hrest]; omega)
      obtain ⟨hp1, hz1, hb1, hpi1, _⟩ := hstep
      obtain ⟨hp2, hz2, hb2, hpi2⟩ := ihres
      rw [List.foldl_cons]
      refine ⟨?_, ?_, ?_, ?_⟩
      · rw [hp2, hp1]
        simp [sumPan, Pt.add_assoc_right]
      · rw [hz2, hz1]
        simp [sumBy, add_assoc]
      · rw [hb2, hb1]
        simp [sumBy, add_assoc]
      · rw [hpi2, hpi1]
        simp [sumBy, add_assoc]
    · have hcF : truthyQ c.1.duration = false := by
        revert hc
        cases truthyQ c.1.duration <;> simp
      have hstep := applyChangesStep_getD acc c (by rw [hcF, Bool.false_and])
      obtain ⟨hp1, hz1, hb1, hpi1, hd1⟩ := hstep
      have hdur : truthyQ (HandlerManager.applyChangesStep acc c).1.duration
          = truthyQ acc.1.duration := by
        rw [hd1, hcF, Bool.false_or]
      have ihres := ih (HandlerManager.applyChangesStep acc c)
        (by
          intro ht
          rw [hdur] at ht
          have := hacc ht
          simpa [List.countP_cons, hcF] using this)
        (by
          simpa [hcF] using hle)
      obtain ⟨hp2, hz2, hb2, hpi2⟩ := ihres
      rw [List.foldl_cons]
      refine ⟨?_, ?_, ?_, ?_⟩
      · rw [hp2, hp1]
        simp [sumPan, Pt.add_assoc_right]
      · rw [hz2, hz1]
        simp [sumBy, add_assoc]
      · rw [hb2, hb1]
        simp [sumBy, add_assoc]
      · rw [hpi2, hpi1]
        simp [sumBy, add_assoc]

/-- C4 counterexample: two queued changes both carrying a truthy animation
duration.  The second one triggers the animated-change override, discarding
the first panDelta: the combined panDelta is (0,1), not the claimed vector
sum (1,1) of all queued panDeltas. -/
theorem applyChanges_duration_override_cex :
    (HandlerManager.combineChanges
      [({ duration := some 1, panDelta := some ⟨1, 0⟩ }, EIP.empty),
       ({ duration := some 1, panDelta := some ⟨0, 1⟩ }, EIP.empty)]).1.panDelta.getD 0
      ≠ sumPan
        [({ duration := some 1, panDelta := some ⟨1, 0⟩ }, EIP.empty),
         ({ duration := some 1, panDelta := some ⟨0, 1⟩ }, EIP.empty)] ∧
    sumPan [({ duration := some 1, panDelta := some ⟨1, 0⟩ }, EIP.empty),
            ({ duration := some 1, panDelta := some ⟨0, 1⟩ }, EIP.empty)]
      = ⟨1, 1⟩ := by
  have hsum : sumPan [({ duration := some 1, panDelta := some ⟨1, 0⟩ }, EIP.empty),
      ({ duration := some 1, panDelta := some ⟨0, 1⟩ }, EIP.empty)] = ⟨1, 1⟩ := by
    norm_num [sumPan, Pt.add_def, Pt.zero_def, Pt.zero_x, Pt.zero_y, Pt.mk.injEq]
  refine ⟨?_, hsum⟩
  rw [hsum]
  have hcomb : (HandlerManager.combineChanges
      [({ duration := some 1, panDelta := some ⟨1, 0⟩ }, EIP.empty),
       ({ duration := some 1, panDelta := some ⟨0, 1⟩ }, EIP.empty)]).1.panDelta.getD 0
      = ⟨0, 1⟩ := by
    norm_num [HandlerManager.combineChanges, HandlerManager.applyChangesStep,
      HandlerResult.empty, truthyQ, truthyB, Pt.add_def, Pt.zero_def, Pt.zero_x,
      Pt.zero_y, Pt.mk.injEq]
  rw [hcomb]
  norm_num [Pt.mk.injEq]

/-- C4 (amended): applyChanges applies the combined result once and always
leaves the change queue empty; provided at most one queued change carries a
truthy animation duration (an animated change arriving on top of an earlier
one overrides and discards everything accumulated before it), the combined
result's panDelta is the vector sum of all queued panDeltas and the zoom,
bearing and pitch deltas add likewise. -/
theorem applyChanges_sums {Cam I : Type}
    (applyCam : HandlerResult → Cam → Cam)
    (inertiaRecord : HandlerResult → I → I) (inertiaClear : I → I)
    (s : MState Cam I) :
    (HandlerManager.applyChanges applyCam inertiaRecord inertiaClear s).changes
      = [] ∧
    (s.changes.countP (fun c => truthyQ c.1.duration) ≤ 1 →
      (HandlerManager.combineChanges s.changes).1.panDelta.getD 0
          = sumPan s.changes ∧
      (HandlerManager.combineChanges s.changes).1.zoomDelta.getD 0
          = sumBy HandlerResult.zoomDelta s.changes ∧
      (HandlerManager.combineChanges s.changes).1.bearingDelta.getD 0
          = sumBy HandlerResult.bearingDelta s.changes ∧
      (HandlerManager.combineChanges s.changes).1.pitchDelta.getD 0
          = sumBy HandlerResult.pitchDelta s.changes) := by
  refine ⟨rfl, fun hle => ?_⟩
  have h := combine_foldl_sums s.changes (HandlerResult.empty, EIP.empty)
    (fun habs => absurd habs (by simp [HandlerResult.empty, truthyQ])) hle
  simpa [HandlerManager.combineChanges, HandlerResult.empty, Pt.zero_add_left]
    using h

/-- C4 witness: two non-animated queued changes with panDeltas (1,0) and
(0,1): the queue empties and every delta field is the sum of the queued
ones. -/
theorem applyChanges_sums_witness :
    (@HandlerManager.applyChanges ℚ ℚ (fun _ t => t) (fun _ t => t)
      (fun t => t)
      ⟨[({ panDelta := some ⟨1, 0⟩ }, EIP.empty),
        ({ panDelta := some ⟨0, 1⟩ }, EIP.empty)], 0, 0, [], []⟩).changes = [] ∧
    ((HandlerManager.combineChanges
        [({ panDelta := some ⟨1, 0⟩ }, EIP.empty),
         ({ panDelta := some ⟨0, 1⟩ }, EIP.empty)]).1.panDelta.getD 0
        = sumPan [({ panDelta := some ⟨1, 0⟩ }, EIP.empty),
                  ({ panDelta := some ⟨0, 1⟩ }, EIP.empty)] ∧
     (HandlerManager.combineChanges
        [({ panDelta := some ⟨1, 0⟩ }, EIP.empty),
         ({ panDelta := some ⟨0, 1⟩ }, EIP.empty)]).1.zoomDelta.getD 0
        = sumBy HandlerResult.zoomDelta
            [({ panDelta := some ⟨1, 0⟩ }, EIP.empty),
             ({ panDelta := some ⟨0, 1⟩ }, EIP.empty)] ∧
     (HandlerManager.combineChanges
        [({ panDelta := some ⟨1, 0⟩ }, EIP.empty),
         ({ panDelta := some ⟨0, 1⟩ }, EIP.empty)]).1.bearingDelta.getD 0
        = sumBy HandlerResult.bearingDelta
            [({ panDelta := some ⟨1, 0⟩ }, EIP.empty),
             ({ panDelta := some ⟨0, 1⟩ }, EIP.empty)] ∧
     (HandlerManager.combineChanges
        [({ panDelta := some ⟨1, 0⟩ }, EIP.empty),
         ({ panDelta := some ⟨0, 1⟩ }, EIP.empty)]).1.pitchDelta.getD 0
        = sumBy HandlerResult.pitchDelta
            [({ panDelta := some ⟨1, 0⟩ }, EIP.empty),
             ({ panDelta := some ⟨0, 1⟩ }, EIP.empty)]) :=
  ⟨(applyChanges_sums (fun _ t => t) (fun _ t => t) (fun t => t)
      ⟨[({ panDelta := some ⟨1, 0⟩ }, EIP.empty),
        ({ panDelta := some ⟨0, 1⟩ }, EIP.empty)], 0, 0, [], []⟩).1,
   (applyChanges_sums (fun _ t => t) (fun _ t => t) (fun t => t)
      ⟨[({ panDelta := some ⟨1, 0⟩ }, EIP.empty),
        ({ panDelta := some ⟨0, 1⟩ }, EIP.empty)], 0, 0, [], []⟩).2
     (by simp [truthyQ])⟩

/-- Helper: a dispatch pass over an appended registration list performs the
prefix's actions unchanged and continues from the prefix's final state —
later registrations cannot influence what happens to earlier ones. -/
theorem runPass_append (st : PassState) (l1 l2 : List Registration) :
    HandlerManager.runPass st (l1 ++ l2)
      = ((HandlerManager.runPass st l1).1
          ++ (HandlerManager.runPass (HandlerManager.runPass st l1).2 l2).1,
         (HandlerManager.runPass (HandlerManager.runPass st l1).2 l2).2) := by
  induction l1 generalizing st with
  | nil => rfl
  | cons r t ih =>
    rcases hsr : HandlerManager.stepReg st r with ⟨act, st1⟩
    simp only [List.cons_append, HandlerManager.runPass, hsr, List.append_eq,
      ih st1]

/-- C1 counterexample: A registered first with no allow-list, B second with
allowList=[A]; both enabled, both respond to the event and report active.
A enters the active set first, yet B is dispatched, not reset: an active
handler on B's allow-list does not block B, contrary to the claim. -/
theorem dispatch_allowList_cex :
    (HandlerManager.runPass PassState.init
      [("A", ⟨true, true, some { bearingDelta := some 1 }, true, false, false⟩,
        none),
       ("B", ⟨true, true, some { bearingDelta := some 1 }, true, false, false⟩,
        some ["A"])]).1
      = [("A", Action.dispatched (some { bearingDelta := some 1 })),
         ("B", Action.dispatched (some { bearingDelta := some 1 }))] ∧
    Action.dispatched (some { bearingDelta := some 1 }) ≠ Action.reset "A" := by
  constructor
  · rfl
  · decide

/-- C1 (amended): blocking consults the candidate recognizer's own
allow-list against the active set built so far in the same pass.  With A
having no allow-list and B having allowList=[A]: when A is processed first
and enters the active set, B is not blocked — the event is dispatched to B,
since A is on B's allow-list; with the registration order reversed, A is
reset, because an absent allow-list blocks against every already-active
recognizer.  Moreover the actions of a prefix of the registration list are
unchanged by whatever is registered after it: a recognizer processed later
in registration order never blocks one processed earlier in the same
pass. -/
theorem dispatch_order_sensitivity :
    (∀ (st : PassState) (l1 l2 : List Registration),
      (HandlerManager.runPass st (l1 ++ l2)).1
        = (HandlerManager.runPass st l1).1
          ++ (HandlerManager.runPass (HandlerManager.runPass st l1).2 l2).1) ∧
    (HandlerManager.runPass PassState.init
      [("A", ⟨true, true, some { bearingDelta := some 1 }, true, false, false⟩,
        none),
       ("B", ⟨true, true, some { bearingDelta := some 1 }, true, false, false⟩,
        some ["A"])]).1
      = [("A", Action.dispatched (some { bearingDelta := some 1 })),
         ("B", Action.dispatched (some { bearingDelta := some 1 }))] ∧
    (HandlerManager.runPass PassState.init
      [("B", ⟨true, true, some { bearingDelta := some 1 }, true, false, false⟩,
        some ["A"]),
       ("A", ⟨true, true, some { bearingDelta := some 1 }, true, false, false⟩,
        none)]).1
      = [("B", Action.dispatched (some { bearingDelta := some 1 })),
         ("A", Action.reset "B")] := by
  refine ⟨fun st l1 l2 => ?_, rfl, rfl⟩
  rw [runPass_append]

end Mgl
